import Mathlib

/-!
Verification of the kim data-mapping core (`src/kim/mapping.py`) against its
natural-language specification.  The Python code is shallowly embedded:
Python values become the inductive type `Value`, exceptions become the
`PyExc` error type threaded through `Except`, dicts become ordered
association lists, and the external Field collaborator becomes a record of
the operations the core invokes on it.
-/

namespace Kim

/-- A Python runtime value, as far as the mapping core observes it:
`None`, ints, strings, booleans, lists, dicts (ordered association lists)
and attribute-bearing objects. -/
inductive Value where
  | vnone
  | vint (n : Int)
  | vstr (s : String)
  | vbool (b : Bool)
  | vlist (xs : List Value)
  | vdict (entries : List (String × Value))
  | vobj (attrs : List (String × Value))

/-- The `output` dict built by a pass: an insertion-ordered dict. -/
abbrev Output := List (String × Value)

/-- The `errors` map of a pass: field key to ordered list of messages,
insertion-ordered (Python `defaultdict(list)`). -/
abbrev Errors := List (String × List String)

/-- Modelled from the spec: the exception taxonomy of `kim.exceptions`
(the module itself is not under `src/`, only its signalling contract is
used by `mapping.py`): `ValidationError` carries a message, `FieldError`
carries a key and a message, `MappingErrors` carries the aggregated error
map; every other Python exception (`ValueError`, `TypeError`,
`AttributeError`, ...) is an unrecognized fault carried by name. -/
inductive PyExc where
  | validationError (message : String)
  | fieldError (key : String) (message : String)
  | mappingErrors (errors : Errors)
  | other (name : String)

/-- Modelled from the spec: the Field capability contract (section 6) of the
external Field collaborator (`kim.fields` / `kim.type_mapper` are not under
`src/`): `name`, `source`, `default`, `required`, the two direction-specific
validations (which may signal a `ValidationError` or fault arbitrarily) and
the two direction-specific coercions.  These are the only operations
`mapping.py` invokes on a field. -/
structure Field where
  name : String
  source : String
  default : Value
  required : Bool
  validate_for_marshal : Value → Except PyExc Unit
  validate_for_serialize : Value → Except PyExc Unit
  marshal_value : Value → Except PyExc Value
  serialize_value : Value → Except PyExc Value

/-- An argument handed to the `Mapping` constructor or to `add_field`: either
an object satisfying the Field contract (a `BaseTypeMapper` instance) or an
arbitrary non-Field object. -/
inductive FieldLike where
  | field (f : Field)
  | notAField (tag : String)

/-- The `isinstance(item, BaseTypeMapper)` test performed by
`Mapping._arg_loop`. -/
def isField : FieldLike → Bool
  | .field _ => true
  | .notAField _ => false

/-- The keyword arguments accepted by the `Mapping` constructor
(`def __init__(self, *args, **kwargs)` accepts any keyword silently); the
tests pass `collection` and `validator`. -/
structure MappingKwargs where
  collection : Option (List FieldLike) := none
  validator : Option (Output → Except PyExc Unit) := none

/-- Embeds `kim.mapping.Mapping`: after construction it holds only the `fields`
collection (modelled with the default list container). -/
structure Mapping where
  fields : List FieldLike

/-- Embeds `Mapping.add_field`: appends to `fields` with no check. -/
def add_field (m : Mapping) (f : FieldLike) : Mapping :=
  { fields := m.fields ++ [f] }

/-- Embeds `Mapping._arg_loop`: iterates over the constructor args and calls
`add_field` exactly on those passing the `isinstance` test. -/
def argLoop (m : Mapping) (items : List FieldLike) : Mapping :=
  items.foldl (fun acc it => if isField it then add_field acc it else acc) m

/-- Embeds `Mapping.__init__`: `self.fields = kwargs.get('collection', list())`
followed by `self._arg_loop(args)`.  No other keyword (in particular no
`validator`) is read. -/
def Mapping.new (args : List FieldLike) (kwargs : MappingKwargs) : Mapping :=
  argLoop { fields := kwargs.collection.getD [] } args

/-- Python truthiness on the values the core can observe (`value or
field.default` branches on this). -/
def truthy : Value → Bool
  | .vnone => false
  | .vint n => n ≠ 0
  | .vstr s => s ≠ ""
  | .vbool b => b
  | .vlist xs => !xs.isEmpty
  | .vdict es => !es.isEmpty
  | .vobj _ => true

/-- Association-list lookup (Python `dict` key lookup). -/
def assocLookup (k : String) : List (String × α) → Option α
  | [] => none
  | (k', v) :: rest => if k' = k then some v else assocLookup k rest

/-- Python `d[k] = v` on an insertion-ordered dict: overwrite in place,
else append. -/
def dictSet (out : List (String × α)) (k : String) (v : α) : List (String × α) :=
  match out with
  | [] => [(k, v)]
  | (k', v') :: rest => if k' = k then (k', v) :: rest else (k', v') :: dictSet rest k v

/-- Python `out.update(es)`: set each key of `es` in order. -/
def dictUpdate (out : Output) (es : List (String × Value)) : Output :=
  es.foldl (fun o kv => dictSet o kv.1 kv.2) out

/-- Python `self.errors[key].append(message)` on a `defaultdict(list)`. -/
def errsAppend (errs : Errors) (k : String) (msg : String) : Errors :=
  match errs with
  | [] => [(k, [msg])]
  | (k', ms) :: rest =>
      if k' = k then (k', ms ++ [msg]) :: rest else (k', ms) :: errsAppend rest k msg

/-- Embeds `kim.mapping.get_attribute(data, attr)`: the sentinel `'__self__'`
returns `data`; a dict answers `data.get(attr)`; anything else answers
`getattr(data, attr, None)`. -/
def get_attribute (data : Value) (attr : String) : Value :=
  if attr = "__self__" then data
  else
    match data with
    | .vdict entries => (assocLookup attr entries).getD .vnone
    | .vobj attrs => (assocLookup attr attrs).getD .vnone
    | _ => .vnone

/-- A direction strategy: the two operations the iteration skeleton
(`MappingIterator._run`) delegates to the marshal/serialize mixins. -/
structure Strategy where
  processField : Field → Value → Except PyExc Value
  updateOutput : Field → Value → Output → Except PyExc Output

/-- Embeds `MarshalMixin.process_field` via `BaseDataMapping.process_field`:
resolve by `field.name`, validate for marshal (a `ValidationError` is
re-raised as `FieldError(field.source, message)` by
`BaseDataMapping.validate`, any other exception propagates), then coerce
`value or field.default`. -/
def marshalProcessField (f : Field) (data : Value) : Except PyExc Value :=
  let value := get_attribute data f.name
  match f.validate_for_marshal value with
  | .error (.validationError msg) => .error (.fieldError f.source msg)
  | .error e => .error e
  | .ok _ => f.marshal_value (if truthy value then value else f.default)

/-- Embeds `MarshalMixin.update_output`: the `'__self__'` source merges the value
(which must be a dict, else `dict.update` raises `TypeError`) into the
output; any other source is used as a single flat output key. -/
def marshalUpdateOutput (f : Field) (v : Value) (out : Output) : Except PyExc Output :=
  if f.source = "__self__" then
    match v with
    | .vdict es => .ok (dictUpdate out es)
    | _ => .error (.other "TypeError")
  else
    .ok (dictSet out f.source v)

/-- The marshal direction strategy (`MarshalMapping`). -/
def marshalStrategy : Strategy :=
  { processField := marshalProcessField, updateOutput := marshalUpdateOutput }

/-- Embeds `SerializeMixin.process_field` via `BaseDataMapping.process_field`:
resolve by `field.source`, validate for serialize (a `ValidationError` is
re-raised as `FieldError(field.source, message)` by the shared
`BaseDataMapping.validate`), then coerce `value or field.default`. -/
def serializeProcessField (f : Field) (data : Value) : Except PyExc Value :=
  let value := get_attribute data f.source
  match f.validate_for_serialize value with
  | .error (.validationError msg) => .error (.fieldError f.source msg)
  | .error e => .error e
  | .ok _ => f.serialize_value (if truthy value then value else f.default)

/-- Embeds `SerializeMixin.update_output`: flat assignment under `field.name`. -/
def serializeUpdateOutput (f : Field) (v : Value) (out : Output) : Except PyExc Output :=
  .ok (dictSet out f.name v)

/-- The serialize direction strategy (`SerializeMapping`). -/
def serializeStrategy : Strategy :=
  { processField := serializeProcessField, updateOutput := serializeUpdateOutput }

/-- Processing a constructor-admitted element of `mapping.fields`: a
non-Field object has no `name`/`source` attribute, so Python raises
`AttributeError` (not a `FieldError`). -/
def procFieldLike (st : Strategy) (fl : FieldLike) (data : Value) : Except PyExc Value :=
  match fl with
  | .field f => st.processField f data
  | .notAField _ => .error (.other "AttributeError")

/-- Runs `update_output` on an element of `mapping.fields`. -/
def updFieldLike (st : Strategy) (fl : FieldLike) (v : Value) (out : Output) :
    Except PyExc Output :=
  match fl with
  | .field f => st.updateOutput f v out
  | .notAField _ => .error (.other "AttributeError")

/-- The field loop of `MappingIterator._run`: each field is processed and
written inside a `try` that catches exactly `FieldError`, appending its
message under its key and continuing; any other exception aborts the pass. -/
def runFields (st : Strategy) (data : Value) :
    List FieldLike → Output → Errors → Except PyExc (Output × Errors)
  | [], out, errs => .ok (out, errs)
  | fl :: rest, out, errs =>
    match procFieldLike st fl data with
    | .error (.fieldError k msg) => runFields st data rest out (errsAppend errs k msg)
    | .error e => .error e
    | .ok v =>
      match updFieldLike st fl v out with
      | .error (.fieldError k msg) => runFields st data rest out (errsAppend errs k msg)
      | .error e => .error e
      | .ok out' => runFields st data rest out' errs

/-- Embeds `MappingIterator._run`: run the field loop from empty state, then
`raise MappingErrors(self.errors)` when `errors` is non-empty, else return
the output. -/
def iterRun (st : Strategy) (m : Mapping) (data : Value) : Except PyExc Output :=
  match runFields st data m.fields [] [] with
  | .error e => .error e
  | .ok (out, errs) =>
    match errs with
    | [] => .ok out
    | _ => .error (.mappingErrors errs)

/-- Embeds `MappingIterator.run` with `many=True`: the list comprehension
`[cls.run(mapping, d, many=False) for d in data]`; an exception raised for
one instance propagates out of the comprehension. -/
def iterRunMany (st : Strategy) (m : Mapping) : List Value → Except PyExc (List Output)
  | [] => .ok []
  | d :: rest =>
    match iterRun st m d with
    | .error e => .error e
    | .ok out =>
      match iterRunMany st m rest with
      | .error e => .error e
      | .ok outs => .ok (out :: outs)

/-- Embeds `kim.mapping.marshal(mapping, data)` (single instance): delegates to
`MarshalMapping.run` with no wrapping of escaping exceptions. -/
def marshal (m : Mapping) (data : Value) : Except PyExc Output :=
  iterRun marshalStrategy m data

/-- Embeds `kim.mapping.marshal(mapping, data, many=True)`. -/
def marshalMany (m : Mapping) (ds : List Value) : Except PyExc (List Output) :=
  iterRunMany marshalStrategy m ds

/-- Embeds `kim.mapping.serialize(mapping, data)` (single instance). -/
def serialize (m : Mapping) (data : Value) : Except PyExc Output :=
  iterRun serializeStrategy m data

/-- Embeds `kim.mapping.serialize(mapping, data, many=True)`. -/
def serializeMany (m : Mapping) (ds : List Value) : Except PyExc (List Output) :=
  iterRunMany serializeStrategy m ds

/-- One field's effect on the accumulating pass state, written as a total
step: a `FieldError` appends its message under its key, a successful field
writes into the output; the unexpected-fault branches (never taken on a
tame pass) leave the state unchanged. -/
def declStep (st : Strategy) (data : Value) (acc : Output × Errors) (fl : FieldLike) :
    Output × Errors :=
  match procFieldLike st fl data with
  | .error (.fieldError k msg) => (acc.1, errsAppend acc.2 k msg)
  | .error _ => acc
  | .ok v =>
    match updFieldLike st fl v acc.1 with
    | .ok out' => (out', acc.2)
    | .error (.fieldError k msg) => (acc.1, errsAppend acc.2 k msg)
    | .error _ => acc

/-- The declarative description of a full pass: every field of the mapping
is attempted, in order, independent of earlier failures. -/
def declPass (st : Strategy) (data : Value) (fields : List FieldLike) : Output × Errors :=
  fields.foldl (declStep st data) ([], [])

/-- A field step is tame when it either fails with a `FieldError` (the only
exception the `_run` loop recovers from) or succeeds with its output write
succeeding on every output state — i.e. no unexpected fault occurs. -/
def FieldStepTame (st : Strategy) (data : Value) (fl : FieldLike) : Prop :=
  (∃ k msg, procFieldLike st fl data = .error (.fieldError k msg)) ∨
  (∃ v, procFieldLike st fl data = .ok v ∧
    ∀ out : Output, ∃ out', updFieldLike st fl v out = .ok out')

/-- The attribute-resolution rules exactly as the specification words them
(spec section 4.1), written as a second, independent definition to compare
with the code's `get_attribute`: sentinel key first, then dict-like lookup
with `None` for an absent key, then attribute lookup defaulting to `None`;
total, hence never raising. -/
def resolveSpec (data : Value) (key : String) : Value :=
  if key = "__self__" then data
  else
    match data with
    | .vdict entries =>
      match assocLookup key entries with
      | some v => v
      | none => .vnone
    | .vobj attrs =>
      match assocLookup key attrs with
      | some v => v
      | none => .vnone
    | _ => .vnone

/-! Concrete field fixtures, mirroring the behaviour of `kim.types.String`
and `kim.types.Integer` as exercised by the repository's tests: validation
rejects a value of the wrong shape with the message
`"This field was of an incorrect type"`, coercion is the identity. -/

/-- A string-typed field with the given name and source. -/
def stringField (nm src : String) : Field :=
  { name := nm
    source := src
    default := .vnone
    required := true
    validate_for_marshal := fun v =>
      match v with
      | .vstr _ => .ok ()
      | _ => .error (.validationError "This field was of an incorrect type")
    validate_for_serialize := fun v =>
      match v with
      | .vstr _ => .ok ()
      | _ => .error (.validationError "This field was of an incorrect type")
    marshal_value := fun v => .ok v
    serialize_value := fun v => .ok v }

/-- An integer-typed field with the given name and source. -/
def intField (nm src : String) : Field :=
  { name := nm
    source := src
    default := .vnone
    required := true
    validate_for_marshal := fun v =>
      match v with
      | .vint _ => .ok ()
      | _ => .error (.validationError "This field was of an incorrect type")
    validate_for_serialize := fun v =>
      match v with
      | .vint _ => .ok ()
      | _ => .error (.validationError "This field was of an incorrect type")
    marshal_value := fun v => .ok v
    serialize_value := fun v => .ok v }

/-- The mapping `Mapping(Field('name', String()), Field('id', Integer()))`
used throughout the tests. -/
def nameIdMapping : Mapping :=
  Mapping.new [.field (stringField "name" "name"), .field (intField "id" "id")] {}

/-- Data `{'name': 'foo', 'id': 'bar'}`: the string field is valid, the integer
field is not. -/
def mixedData : Value := .vdict [("name", .vstr "foo"), ("id", .vstr "bar")]

/-- The mapping of `test_source_span_relationships`: two fields with
dotted sources sharing the `user.company` path, plus a flat `id` field. -/
def spanMapping : Mapping :=
  Mapping.new
    [.field (stringField "company_name" "user.company.name"),
     .field (intField "id" "id"),
     .field (intField "company_id" "user.company.id")] {}

/-- The input of `test_source_span_relationships`. -/
def spanData : Value :=
  .vdict [("company_name", .vstr "old street labs"), ("company_id", .vint 5), ("id", .vint 1)]

/-- What the code actually produces for `spanData`: the dotted sources are
used verbatim as flat top-level keys. -/
def spanFlatOutput : Output :=
  [("user.company.name", .vstr "old street labs"), ("id", .vint 1),
   ("user.company.id", .vint 5)]

/-- The batch of `test_many_with_errors`: instances 1 and 3 have an invalid
`id`, instance 2 is valid. -/
def batchData : List Value :=
  [.vdict [("name", .vstr "foo"), ("id", .vstr "abc")],
   .vdict [("name", .vstr "baz"), ("id", .vint 5)],
   .vdict [("name", .vstr "bar"), ("id", .vstr "abc")]]

/-- A mapping with a single field whose `source` differs from its `name`. -/
def diffSourceMapping : Mapping :=
  Mapping.new [.field (stringField "name" "different_name")] {}

/-- A `required=False` field whose validation operations record (by failing
with a marker message) that they were invoked at all. -/
def recordingValidateField : Field :=
  { name := "name"
    source := "name"
    default := .vnone
    required := false
    validate_for_marshal := fun _ => .error (.validationError "validate invoked")
    validate_for_serialize := fun _ => .error (.validationError "validate invoked")
    marshal_value := fun v => .ok v
    serialize_value := fun v => .ok v }

/-- A `required=False` field whose coercion operations record (by returning
a marker value) that they were invoked at all. -/
def recordingCoerceField : Field :=
  { name := "name"
    source := "name"
    default := .vnone
    required := false
    validate_for_marshal := fun _ => .ok ()
    validate_for_serialize := fun _ => .ok ()
    marshal_value := fun _ => .ok (.vstr "marshal coercion invoked")
    serialize_value := fun _ => .ok (.vstr "serialize coercion invoked") }

/-- The field of `test_reraise`: its validation deliberately raises an
unhandled `ValueError` instead of a `ValidationError`. -/
def faultyField : Field :=
  { name := "name"
    source := "name"
    default := .vnone
    required := true
    validate_for_marshal := fun _ => .error (.other "ValueError")
    validate_for_serialize := fun _ => .error (.other "ValueError")
    marshal_value := fun v => .ok v
    serialize_value := fun v => .ok v }

/-- A field that accepts every value, with default `"D"` and identity
coercions, used to observe the default substitution on falsy values. -/
def lenientField : Field :=
  { name := "n"
    source := "n"
    default := .vstr "D"
    required := false
    validate_for_marshal := fun _ => .ok ()
    validate_for_serialize := fun _ => .ok ()
    marshal_value := fun v => .ok v
    serialize_value := fun v => .ok v }

/-- On a tame pass the stateful field loop of `_run` never aborts and
computes exactly the declarative fold: every field is attempted. -/
lemma runFields_eq_foldl (st : Strategy) (data : Value) :
    ∀ (fields : List FieldLike) (out : Output) (errs : Errors),
      (∀ fl ∈ fields, FieldStepTame st data fl) →
      runFields st data fields out errs = .ok (fields.foldl (declStep st data) (out, errs)) := by
  intro fields
  induction fields with
  | nil => intro out errs _; rfl
  | cons fl rest ih =>
    intro out errs h
    have hfl : FieldStepTame st data fl := h fl (List.mem_cons_self _ _)
    have hrest : ∀ x ∈ rest, FieldStepTame st data x :=
      fun x hx => h x (List.mem_cons_of_mem _ hx)
    rcases hfl with ⟨k, msg, hp⟩ | ⟨v, hp, hupd⟩
    · rw [runFields, List.foldl_cons]
      simp only [hp]
      rw [show declStep st data (out, errs) fl = (out, errsAppend errs k msg) by
        simp [declStep, hp]]
      exact ih out (errsAppend errs k msg) hrest
    · rcases hupd out with ⟨out', hu⟩
      rw [runFields, List.foldl_cons]
      simp only [hp, hu]
      rw [show declStep st data (out, errs) fl = (out', errs) by
        simp [declStep, hp, hu]]
      exact ih out' errs hrest

/-- On a tame pass `_run` returns the declaratively built output when the
accumulated error map is empty, and raises `MappingErrors` carrying that
map otherwise. -/
lemma iterRun_char (st : Strategy) (m : Mapping) (data : Value)
    (h : ∀ fl ∈ m.fields, FieldStepTame st data fl) :
    iterRun st m data =
      if (declPass st data m.fields).2 = [] then .ok (declPass st data m.fields).1
      else .error (.mappingErrors (declPass st data m.fields).2) := by
  unfold iterRun
  rw [runFields_eq_foldl st data m.fields [] [] h]
  have hfold : List.foldl (declStep st data) ([], []) m.fields = declPass st data m.fields := rfl
  rw [hfold]
  rcases hdp : declPass st data m.fields with ⟨out, errs⟩
  cases errs with
  | nil => rfl
  | cons e es => simp

/-- Lemma: `_arg_loop` keeps exactly the arguments passing the `isinstance` test,
appended in order. -/
lemma argLoop_fields :
    ∀ (items : List FieldLike) (m : Mapping),
      (argLoop m items).fields = m.fields ++ items.filter (fun it => isField it) := by
  intro items
  induction items with
  | nil => intro m; simp [argLoop]
  | cons it rest ih =>
    intro m
    rw [argLoop, List.foldl_cons]
    by_cases hit : isField it
    · rw [show (if isField it then add_field m it else m) = add_field m it by simp [hit]]
      have := ih (add_field m it)
      rw [argLoop] at this
      rw [this]
      simp [add_field, List.filter_cons, hit]
    · rw [show (if isField it then add_field m it else m) = m by simp [hit]]
      have := ih m
      rw [argLoop] at this
      rw [this]
      simp [List.filter_cons, hit]

/-- C1: for every Mapping and every single data instance, a marshal or
serialize pass attempts all fields in mapping order even when earlier
fields failed validation — a field-level validation failure appends its
message to the error map under that field's key and processing continues —
and after the full pass a `MappingErrors` aggregate carrying the
accumulated map is raised if and only if the error map is non-empty,
otherwise the built output is returned.  (Stated for passes whose
per-field steps either succeed or fail with a recognized `FieldError`;
an unexpected fault is claim C8's territory.) -/
theorem marshal_serialize_attempt_all_fields_and_aggregate (m : Mapping) (d : Value)
    (hm : ∀ fl ∈ m.fields, FieldStepTame marshalStrategy d fl)
    (hs : ∀ fl ∈ m.fields, FieldStepTame serializeStrategy d fl) :
    (marshal m d =
      if (declPass marshalStrategy d m.fields).2 = [] then
        .ok (declPass marshalStrategy d m.fields).1
      else .error (.mappingErrors (declPass marshalStrategy d m.fields).2)) ∧
    (serialize m d =
      if (declPass serializeStrategy d m.fields).2 = [] then
        .ok (declPass serializeStrategy d m.fields).1
      else .error (.mappingErrors (declPass serializeStrategy d m.fields).2)) :=
  ⟨iterRun_char marshalStrategy m d hm, iterRun_char serializeStrategy m d hs⟩

/-- Witness for C1: on `{'name': 'foo', 'id': 'bar'}` both directions
attempt both fields, accumulate the one failure under `'id'`, and raise
the aggregate. -/
theorem marshal_serialize_attempt_all_fields_and_aggregate_witness :
    marshal nameIdMapping mixedData =
      .error (.mappingErrors [("id", ["This field was of an incorrect type"])]) ∧
    serialize nameIdMapping mixedData =
      .error (.mappingErrors [("id", ["This field was of an incorrect type"])]) := by
  have hfe : nameIdMapping.fields =
      [.field (stringField "name" "name"), .field (intField "id" "id")] := rfl
  have hm : ∀ fl ∈ nameIdMapping.fields, FieldStepTame marshalStrategy mixedData fl := by
    intro fl hfl
    rw [hfe] at hfl
    simp only [List.mem_cons, List.mem_nil_iff, or_false] at hfl
    rcases hfl with rfl | rfl
    · exact Or.inr ⟨.vstr "foo", rfl, fun out => ⟨dictSet out "name" (.vstr "foo"), rfl⟩⟩
    · exact Or.inl ⟨"id", "This field was of an incorrect type", rfl⟩
  have hs : ∀ fl ∈ nameIdMapping.fields, FieldStepTame serializeStrategy mixedData fl := by
    intro fl hfl
    rw [hfe] at hfl
    simp only [List.mem_cons, List.mem_nil_iff, or_false] at hfl
    rcases hfl with rfl | rfl
    · exact Or.inr ⟨.vstr "foo", rfl, fun out => ⟨dictSet out "name" (.vstr "foo"), rfl⟩⟩
    · exact Or.inl ⟨"id", "This field was of an incorrect type", rfl⟩
  have h := marshal_serialize_attempt_all_fields_and_aggregate nameIdMapping mixedData hm hs
  exact ⟨h.1.trans (by rfl), h.2.trans (by rfl)⟩

/-- C2 (code evaluated at the failing input of
`test_source_span_relationships`): `MarshalMixin.update_output` uses a
dotted `field.source` as a single flat output key; no nested `'user'`
container is created, contradicting the repository's own test and the
spec. -/
theorem marshal_dotted_source_single_flat_key :
    marshal spanMapping spanData = .ok spanFlatOutput ∧
    assocLookup "user" spanFlatOutput = none ∧
    assocLookup "user.company.name" spanFlatOutput = some (.vstr "old street labs") :=
  ⟨rfl, rfl, rfl⟩

/-- C3 (code evaluated at the failing input of `test_many_with_errors`):
with `many=True` the list comprehension propagates the first instance's
`MappingErrors` immediately, so the whole batch call fails with only the
first instance's aggregate even though the second instance is valid on its
own. -/
theorem marshal_many_aborts_at_first_invalid_instance :
    marshalMany nameIdMapping batchData =
      .error (.mappingErrors [("id", ["This field was of an incorrect type"])]) ∧
    marshal nameIdMapping (.vdict [("name", .vstr "baz"), ("id", .vint 5)]) =
      .ok [("name", .vstr "baz"), ("id", .vint 5)] :=
  ⟨rfl, rfl⟩

/-- C4 counterexample: a serialize pass over a field with
`name = 'name'`, `source = 'different_name'` records its validation
failure under `'different_name'` — the field's source — and the error map
has no `'name'` key, refuting the claim that serialize aggregates under
`field.name`. -/
theorem serialize_error_key_is_source_not_name_cex :
    serialize diffSourceMapping (.vobj [("different_name", .vint 3)]) =
      .error (.mappingErrors [("different_name", ["This field was of an incorrect type"])]) ∧
    assocLookup "name" [("different_name", ["This field was of an incorrect type"])] = none :=
  ⟨rfl, rfl⟩

/-- C4 amended: a field-level validation failure in a serialize pass is
recorded under `field.source` (the same key marshal uses, via the shared
`BaseDataMapping.validate`), not under `field.name`. -/
theorem serialize_failure_keyed_by_source (f : Field) (d : Value) (msg : String)
    (h : f.validate_for_serialize (get_attribute d f.source) = .error (.validationError msg)) :
    serializeProcessField f d = .error (.fieldError f.source msg) := by
  simp [serializeProcessField, h]

/-- Witness for the amended C4. -/
theorem serialize_failure_keyed_by_source_witness :
    serializeProcessField (stringField "name" "different_name")
        (.vobj [("different_name", .vint 3)]) =
      .error (.fieldError "different_name" "This field was of an incorrect type") :=
  serialize_failure_keyed_by_source (stringField "name" "different_name")
    (.vobj [("different_name", .vint 3)]) "This field was of an incorrect type" rfl

/-- C5 (code evaluated at the failing inputs of the
`test_post_process_validator_*` tests): the `Mapping` constructor reads no
`validator` keyword — a mapping built with any validator equals one built
with none — and a marshal pass over such a mapping returns its output
without ever invoking the validator, even one that always raises. -/
theorem validator_kwarg_ignored (v : Output → Except PyExc Unit) :
    Mapping.new [] { collection := none, validator := some v } =
      Mapping.new [] { collection := none, validator := none } ∧
    marshal (Mapping.new [] { collection := none, validator := some v }) (.vdict []) =
      .ok [] :=
  ⟨rfl, rfl⟩

/-- C6 (code evaluated at the failing inputs of
`test_type_validate_not_called_when_none` and
`test_type_marshal_value_not_called_when_none`): for a `required=False`
field whose resolved value is `None`, both directions still invoke the
field's validation operation (the marker failure lands in the error map)
and still invoke its coercion operation (the marker value lands in the
output). -/
theorem optional_none_field_operations_still_invoked :
    marshal (Mapping.new [.field recordingValidateField] {}) (.vdict [("name", .vnone)]) =
      .error (.mappingErrors [("name", ["validate invoked"])]) ∧
    marshal (Mapping.new [.field recordingCoerceField] {}) (.vdict [("name", .vnone)]) =
      .ok [("name", .vstr "marshal coercion invoked")] ∧
    serialize (Mapping.new [.field recordingValidateField] {}) (.vdict [("name", .vnone)]) =
      .error (.mappingErrors [("name", ["validate invoked"])]) ∧
    serialize (Mapping.new [.field recordingCoerceField] {}) (.vdict [("name", .vnone)]) =
      .ok [("name", .vstr "serialize coercion invoked")] :=
  ⟨rfl, rfl, rfl, rfl⟩

/-- C7: the code's attribute resolver agrees with the specification's
rules everywhere — sentinel `'__self__'` returns the data unchanged,
dict-like data answers `data.get(key)` with `None` for absence, anything
else answers attribute lookup defaulting to `None` — and, being a total
function, never raises. -/
theorem get_attribute_follows_spec_rules (d : Value) (k : String) :
    get_attribute d k = resolveSpec d k := by
  unfold get_attribute resolveSpec
  by_cases hk : k = "__self__"
  · simp [hk]
  · simp only [if_neg hk]
    cases d with
    | vnone => rfl
    | vint n => rfl
    | vstr s => rfl
    | vbool b => rfl
    | vlist xs => rfl
    | vdict entries => cases hal : assocLookup k entries <;> simp [hal]
    | vobj attrs => cases hal : assocLookup k attrs <;> simp [hal]

/-- C8 (code evaluated at the failing input of `test_reraise`): an
exception raised by field logic that is not a `FieldError` is not caught
per-field — it aborts the pass instead of entering the error map — but it
escapes the `marshal`/`serialize` boundary as the raw `ValueError`,
without being normalized into any distinguished top-level error kind. -/
theorem unexpected_fault_escapes_unwrapped :
    marshal (Mapping.new [.field faultyField] {}) (.vdict [("name", .vstr "bob")]) =
      .error (.other "ValueError") ∧
    serialize (Mapping.new [.field faultyField] {}) (.vdict [("name", .vstr "bob")]) =
      .error (.other "ValueError") :=
  ⟨rfl, rfl⟩

/-- C9 counterexample: `add_field` performs no capability check — adding
an arbitrary non-Field object to an empty mapping puts exactly that object
into `fields`, refuting the claim that `add_field` admits only Field-like
objects. -/
theorem add_field_admits_non_field_cex :
    (add_field (Mapping.new [] {}) (.notAField "arbitrary")).fields =
      [.notAField "arbitrary"] ∧
    isField (.notAField "arbitrary") = false :=
  ⟨rfl, rfl⟩

/-- C9 amended: the constructor path does filter — `fields` after
construction is the supplied collection followed by exactly the
`isinstance`-conforming arguments in order (so one Field plus one
arbitrary object yields exactly the Field) — but `add_field` appends its
argument unconditionally, with no capability check. -/
theorem constructor_filters_add_field_appends :
    (∀ (args : List FieldLike) (kw : MappingKwargs),
      (Mapping.new args kw).fields =
        kw.collection.getD [] ++ args.filter (fun it => isField it)) ∧
    ((Mapping.new [.field (stringField "name" "name"), .notAField "arbitrary"] {}).fields =
      [.field (stringField "name" "name")]) ∧
    (∀ (m : Mapping) (fl : FieldLike), (add_field m fl).fields = m.fields ++ [fl]) :=
  ⟨fun args kw => argLoop_fields args { fields := kw.collection.getD [] },
   rfl,
   fun _ _ => rfl⟩

/-- C10: in both directions, when the resolved value passes validation but
is Python-falsy (`None`, `0`, `False`, `''`, an empty collection), the
coercion operation receives `field.default` in place of the original
value (`value or field.default`). -/
theorem falsy_validated_value_replaced_by_default (f : Field) (d : Value)
    (hmok : f.validate_for_marshal (get_attribute d f.name) = .ok ())
    (hmf : truthy (get_attribute d f.name) = false)
    (hsok : f.validate_for_serialize (get_attribute d f.source) = .ok ())
    (hsf : truthy (get_attribute d f.source) = false) :
    marshalProcessField f d = f.marshal_value f.default ∧
    serializeProcessField f d = f.serialize_value f.default := by
  constructor
  · simp [marshalProcessField, hmok, hmf]
  · simp [serializeProcessField, hsok, hsf]

/-- Witness for C10: a valid falsy `0` is replaced by the default `"D"`
before coercion in both directions. -/
theorem falsy_validated_value_replaced_by_default_witness :
    (marshalProcessField lenientField (.vdict [("n", .vint 0)]) =
        lenientField.marshal_value lenientField.default ∧
      serializeProcessField lenientField (.vdict [("n", .vint 0)]) =
        lenientField.serialize_value lenientField.default) ∧
    lenientField.marshal_value lenientField.default = .ok (.vstr "D") :=
  ⟨falsy_validated_value_replaced_by_default lenientField (.vdict [("n", .vint 0)])
      rfl rfl rfl rfl,
    rfl⟩

end Kim
